import Mathlib

/-!
# Verification of the pipesync sync-orchestration engine

Shallow embedding of the pipesync repository (src/mapping.ts, src/pagination.ts,
and the engine `pull` loop together with its type definitions) and proofs of the
frozen claims about it.

Modelling conventions:
* JSON values are modelled by `JValue`; JavaScript `undefined` is modelled as
  `Option.none` at the places the source distinguishes it from `null`
  (`JValue.nullV`).
* JSON numbers are modelled as integers (`Int`); no claim depends on
  floating-point behaviour.
* JavaScript objects are modelled as association lists; lookup takes the first
  binding, assignment updates the first binding in place or appends, mirroring
  JS property-order semantics for objects with unique keys.
* External effects (the Pica HTTP client and the destination store) are
  modelled as oracle functions indexed by page/item position that return
  `Except String _`; an `Except.error` models a thrown exception.
* Prototype-inherited JS properties (e.g. `toString`) and `$`-escape sequences
  of `String.replace` replacement strings are not modelled.
-/

namespace Pipesync

/-- A JSON value (the `unknown` data the engine manipulates). -/
inductive JValue where
  | nullV : JValue
  | str : String → JValue
  | num : Int → JValue
  | bool : Bool → JValue
  | arr : List JValue → JValue
  | obj : List (String × JValue) → JValue

/-- JavaScript truthiness of a `JValue` (`NaN` is not modelled). -/
def jsTruthy : JValue → Bool
  | .nullV => false
  | .str s => !(s == "")
  | .num n => !(n == 0)
  | .bool b => b
  | .arr _ => true
  | .obj _ => true

/-- Truthiness of a JS `string | null | undefined` value (empty string, null
and undefined are falsy). -/
def strTruthy : Option String → Bool
  | some s => !(s == "")
  | none => false

/-- JS property read `o[k]` on a plain object: first binding wins. -/
def lookupField : List (String × JValue) → String → Option JValue
  | [], _ => none
  | (k, v) :: rest, key => if k = key then some v else lookupField rest key

/-- JS property write `o[k] = v`: update the existing binding in place,
otherwise append a new one. -/
def setParam : List (String × JValue) → String → JValue → List (String × JValue)
  | [], k, v => [(k, v)]
  | (k', v') :: rest, k, v =>
      if k' = k then (k, v) :: rest else (k', v') :: setParam rest k v

/-- JS `delete o[k]`. -/
def eraseParam (l : List (String × JValue)) (k : String) : List (String × JValue) :=
  l.filter (fun kv => !(kv.1 == k))

mutual
/-- JS `String(v)` stringification (`[object Object]` for plain objects,
comma-joined elements for arrays with `null` rendered empty, as in
`Array.prototype.toString`). -/
def jsString : JValue → String
  | .nullV => "null"
  | .str s => s
  | .num n => toString n
  | .bool b => if b then "true" else "false"
  | .arr xs => String.intercalate "," (jsStringList xs)
  | .obj _ => "[object Object]"

/-- Stringify array elements for `Array.prototype.join` (null → empty). -/
def jsStringList : List JValue → List String
  | [] => []
  | v :: vs =>
      (match v with
       | .nullV => ""
       | w => jsString w) :: jsStringList vs
end

/-- JS `s.split(sep)` for a single-character separator, as a structurally
recursive scanner (`acc` holds the current piece reversed). -/
def splitOnCharGo (sep : Char) : List Char → List Char → List String
  | acc, [] => [String.mk acc.reverse]
  | acc, c :: rest =>
      if c = sep then String.mk acc.reverse :: splitOnCharGo sep [] rest
      else splitOnCharGo sep (c :: acc) rest

/-- JS `s.split(sep)` for a single-character separator. -/
def jsSplit (s : String) (sep : Char) : List String :=
  splitOnCharGo sep [] s.data

/-- Parse a canonical decimal numeral (no sign, no leading zero), the form a
JS array accepts as an index. -/
def canonicalNat (l : List Char) : Option Nat :=
  if l.isEmpty then none
  else if !(l.all Char.isDigit) then none
  else if decide (1 < l.length) && l.head? == some '0' then none
  else some (l.foldl (fun n c => n * 10 + (c.toNat - 48)) 0)

/-- JS array read `a[part]` with a string key: only a canonical numeric index
inside bounds yields an element. -/
def arrIndex (xs : List JValue) (part : String) : Option JValue :=
  match canonicalNat part.data with
  | some i => xs[i]?
  | none => none

/-- The segment-walking loop of `resolve` (src/mapping.ts lines 16-25):
`none` models the JS `undefined` returned when a segment is missing or the
current value is `null`/non-object with segments remaining. -/
def resolveSteps : JValue → List String → Option JValue
  | v, [] => some v
  | JValue.obj fs, p :: ps =>
      match lookupField fs p with
      | some v => resolveSteps v ps
      | none => none
  | JValue.arr xs, p :: ps =>
      if p = "length" then resolveSteps (JValue.num xs.length) ps
      else
        match arrIndex xs p with
        | some v => resolveSteps v ps
        | none => none
  | _, _ :: _ => none

/-- `resolve(obj, path)` from src/mapping.ts: guard `!obj || typeof obj !==
"object"` (only objects and arrays pass), then walk the dot-separated path. -/
def resolve (v : JValue) (path : String) : Option JValue :=
  match v with
  | JValue.obj _ => resolveSteps v (jsSplit path '.')
  | JValue.arr _ => resolveSteps v (jsSplit path '.')
  | _ => none

/-- `applyMapping(item, mapping)` from src/mapping.ts: for every
`(target, path)` pair set `data[target] = resolve(item, path) ?? null`. -/
def applyMapping (item : JValue) (mapping : List (String × String)) :
    List (String × JValue) :=
  mapping.map (fun tp => (tp.1, (resolve item tp.2).getD JValue.nullV))

/-- `extractId(item, idField)` from src/mapping.ts: `null` when the path is
unresolved or resolves to `null`, otherwise the stringified value. -/
def extractId (item : JValue) (idField : String) : Option String :=
  match resolve item idField with
  | none => none
  | some JValue.nullV => none
  | some v => some (jsString v)

/-! ## Template substitution (the regex `{word}` global replace) -/

/-- A JS `\w` word character (`[A-Za-z0-9_]`). -/
def wordChar (c : Char) : Bool := c.isAlphanum || c = '_'

/-- Character-level scanner for `template.replace(/\{(\w+)\}/g, f)`: state
`none` scans normally; state `some w` means an opening brace was seen and `w`
holds the word characters read so far (reversed).  On a completed
`brace word brace` match the field is replaced by `f field`; on a failed match
the characters are emitted verbatim and scanning resumes exactly where the JS
regex engine would (word characters cannot restart a match, a second opening
brace can). -/
def subAllGo (f : String → String) : Option (List Char) → List Char → List Char
  | none, [] => []
  | none, c :: rest =>
      if c = '\x7b' then subAllGo f (some []) rest
      else c :: subAllGo f none rest
  | some w, [] => '\x7b' :: w.reverse
  | some w, c :: rest =>
      if wordChar c then subAllGo f (some (c :: w)) rest
      else if c = '\x7d' then
        if w.isEmpty then '\x7b' :: '\x7d' :: subAllGo f none rest
        else (f (String.mk w.reverse)).data ++ subAllGo f none rest
      else if c = '\x7b' then '\x7b' :: w.reverse ++ subAllGo f (some []) rest
      else '\x7b' :: w.reverse ++ (c :: subAllGo f none rest)

/-- `buildExternalUrl(template, item)` from src/mapping.ts: every `{field}`
is replaced by the stringified `resolve(item, field)`, or the empty string if
it resolved to `null`/`undefined`. -/
def buildExternalUrl (template : String) (item : JValue) : String :=
  String.mk (subAllGo (fun field =>
    match resolve item field with
    | some JValue.nullV => ""
    | some v => jsString v
    | none => "") none template.data)

/-- The replacement callback of the natural-key templating in the engine
(src engine lines 472-475): `mappedData[field]`, empty string when the value
is nullish. -/
def phSubst (mappedData : List (String × JValue)) (field : String) : String :=
  match lookupField mappedData field with
  | some JValue.nullV => ""
  | some v => jsString v
  | none => ""

/-- The natural-key template substitution of the engine:
`template.replace(/\{(\w+)\}/g, ...)` over the mapped data. -/
def naturalKeyResolve (template : String) (mappedData : List (String × JValue)) :
    String :=
  String.mk (subAllGo (phSubst mappedData) none template.data)

/-- State machine deciding whether every opening brace begins a complete
`brace word brace` placeholder: state `none` is outside a placeholder, state
`some seen` is inside one with `seen` recording whether a word character has
been read yet. -/
def bracesOkGo : Option Bool → List Char → Bool
  | none, [] => true
  | none, c :: rest =>
      if c = '\x7b' then bracesOkGo (some false) rest else bracesOkGo none rest
  | some _, [] => false
  | some seen, c :: rest =>
      if wordChar c then bracesOkGo (some true) rest
      else if c = '\x7d' then seen && bracesOkGo none rest
      else false

/-- `true` iff every opening brace of the character list begins a complete
`brace word brace` placeholder (so the global replace consumes every opening
brace). -/
def bracesOk (l : List Char) : Bool := bracesOkGo none l

/-- `true` iff the character list contains a `brace word brace` placeholder
pattern somewhere. -/
def hasPh : List Char → Bool
  | [] => false
  | c :: rest =>
      if c = '\x7b' then
        (match rest.dropWhile wordChar with
         | d :: _ => decide (d = '\x7d') && !(rest.takeWhile wordChar).isEmpty
         | [] => false) || hasPh rest
      else hasPh rest

/-- If `pat` is a prefix of `l`, return the remainder. -/
def dropPat : List Char → List Char → Option (List Char)
  | [], l => some l
  | _ :: _, [] => none
  | p :: ps, c :: cs => if p = c then dropPat ps cs else none

/-- Find the first occurrence of `pat` in `l`, returning the characters
before it and after it. -/
def findSub : List Char → List Char → Option (List Char × List Char)
  | [], pat =>
      match dropPat pat [] with
      | some r => some ([], r)
      | none => none
  | c :: cs, pat =>
      match dropPat pat (c :: cs) with
      | some rest => some ([], rest)
      | none => (findSub cs pat).map (fun pr => (c :: pr.1, pr.2))

/-- JS `s.replace(pat, repl)` with a plain-string pattern: replaces only the
first occurrence (an empty pattern inserts at the start). -/
def replaceFirst (s pat repl : String) : String :=
  match findSub s.data pat.data with
  | some (pre, post) => String.mk (pre ++ repl.data ++ post)
  | none => s

/-- `true` iff the string contains two adjacent colons (JS
`s.includes("::")`). -/
def hasColonColon : List Char → Bool
  | [] => false
  | ':' :: ':' :: _ => true
  | _ :: rest => hasColonColon rest

/-! ## Pagination driver (src/pagination.ts) -/

/-- `PaginationType` (`none` in the source is modelled as `pnone`). -/
inductive PaginationType where
  | cursor | offset | syncToken | linkHeader | pageNumber | pnone
deriving DecidableEq, BEq, Repr

/-- `PaginationConfig`. -/
structure PaginationConfig where
  type : PaginationType
  requestParam : Option String := none
  responseField : Option String := none
  itemsField : Option String := none
  pageSize : Option Int := none

/-- `config.pageSize || 100` (0 is falsy in JS). -/
def effPageSize (config : PaginationConfig) : Int :=
  match config.pageSize with
  | some n => if n == 0 then 100 else n
  | none => 100

/-- The result record of `extractPage`. -/
structure PaginationResult where
  items : List JValue
  nextCursor : Option String
  done : Bool

/-- Item extraction of `extractPage` (src/pagination.ts lines 29-37): a truthy
`itemsField` is resolved and must give an array, otherwise the whole response
is used when it already is an array. -/
def extractItems (response : JValue) (config : PaginationConfig) : List JValue :=
  if strTruthy config.itemsField then
    match resolve response (config.itemsField.getD "") with
    | some (JValue.arr xs) => xs
    | _ => []
  else
    match response with
    | JValue.arr xs => xs
    | _ => []

/-- Try to match `<url>; rel="next"` at the start of the character list,
returning the captured URL (the regex `<([^>]+)>;\s*rel="next"`). -/
def matchNextAt (l : List Char) : Option String :=
  match l with
  | '<' :: rest =>
      let u := rest.takeWhile (fun c => !(c == '>'))
      match rest.dropWhile (fun c => !(c == '>')) with
      | '>' :: ';' :: r3 =>
          if u.isEmpty then none
          else
            let r4 := r3.dropWhile (fun c =>
              c == ' ' || c == '\t' || c == '\n' || c == '\r' ||
              c == '\x0b' || c == '\x0c')
            if r4.take 11 = ("rel=" ++ "\"next\"").data then some (String.mk u)
            else none
      | _ => none
  | _ => none

/-- First match of the `rel="next"` link pattern anywhere in the string. -/
def findNextLink : List Char → Option String
  | [] => none
  | c :: rest =>
      match matchNextAt (c :: rest) with
      | some u => some u
      | none => findNextLink rest

/-- `headers?.["link"] || headers?.["Link"] || ""`. -/
def linkHeaderVal (headers : List (String × String)) : String :=
  let lookupStr : List (String × String) → String → Option String :=
    fun hs k => (hs.find? (fun kv => kv.1 == k)).map (·.2)
  let a := (lookupStr headers "link").getD ""
  let b := (lookupStr headers "Link").getD ""
  if a ≠ "" then a else b

/-- The per-type cursor/completion switch of `extractPage`
(src/pagination.ts lines 39-100), applied once the response is known to be an
object or array. -/
def extractPageObj (responseObj : JValue) (config : PaginationConfig)
    (headers : List (String × String)) : PaginationResult :=
  let items := extractItems responseObj config
  match config.type with
  | .cursor =>
      let nextCursor : Option String :=
        if strTruthy config.responseField then
          match resolve responseObj (config.responseField.getD "") with
          | some c => if jsTruthy c then some (jsString c) else none
          | none => none
        else none
      ⟨items, nextCursor, !(strTruthy nextCursor)⟩
  | .offset =>
      if (items.length : Int) < effPageSize config then ⟨items, none, true⟩
      else ⟨items, some "continue", false⟩
  | .syncToken =>
      let nextCursor : Option String :=
        if strTruthy config.responseField then
          match resolve responseObj (config.responseField.getD "") with
          | some c => if jsTruthy c then some (jsString c) else none
          | none => none
        else none
      ⟨items, nextCursor, items.isEmpty && !(strTruthy nextCursor)⟩
  | .linkHeader =>
      let nextCursor := findNextLink (linkHeaderVal headers).data
      ⟨items, nextCursor, !(strTruthy nextCursor)⟩
  | .pageNumber =>
      if (items.length : Int) < effPageSize config then ⟨items, none, true⟩
      else ⟨items, some "continue", false⟩
  | .pnone => ⟨items, none, true⟩

/-- `extractPage(response, config, headers)` from src/pagination.ts.  The
guard `!response || typeof response !== "object"` passes exactly for objects
and arrays (JS `typeof null` is `"object"` but `null` is falsy); `none`
models an `undefined` response. -/
def extractPage (response : Option JValue) (config : PaginationConfig)
    (headers : List (String × String)) : PaginationResult :=
  match response with
  | some (JValue.obj fs) => extractPageObj (JValue.obj fs) config headers
  | some (JValue.arr xs) => extractPageObj (JValue.arr xs) config headers
  | _ => ⟨[], none, true⟩

/-- `applyCursor(queryParams, config, cursor, currentOffset)` from
src/pagination.ts lines 109-156. -/
def applyCursor (queryParams : List (String × JValue)) (config : PaginationConfig)
    (cursor : Option String) (currentOffset : Int) : List (String × JValue) :=
  if !(strTruthy cursor) && !(config.type == PaginationType.offset) &&
      !(config.type == PaginationType.pageNumber) then
    queryParams
  else
    match config.type with
    | .cursor =>
        if strTruthy cursor && strTruthy config.requestParam then
          setParam queryParams (config.requestParam.getD "")
            (JValue.str (cursor.getD ""))
        else queryParams
    | .offset =>
        if strTruthy config.requestParam then
          setParam queryParams (config.requestParam.getD "")
            (JValue.num currentOffset)
        else queryParams
    | .syncToken =>
        if strTruthy cursor && strTruthy config.requestParam then
          setParam queryParams (config.requestParam.getD "")
            (JValue.str (cursor.getD ""))
        else queryParams
    | .pageNumber =>
        if strTruthy config.requestParam then
          setParam queryParams (config.requestParam.getD "")
            (JValue.num (Int.fdiv currentOffset (effPageSize config) + 1))
        else queryParams
    | .linkHeader => queryParams
    | .pnone => queryParams

/-! ## Engine data model (the type definitions file) -/

/-- `IncrementalConfig.type`. -/
inductive IncrementalType where
  | queryFilter | syncTokenI | sortFilter
deriving DecidableEq, BEq, Repr

/-- `IncrementalConfig`. -/
structure IncrementalConfig where
  type : IncrementalType
  param : Option String := none
  template : Option String := none
  tokenField : Option String := none

/-- `SyncState` (persisted between runs); status strings are kept verbatim. -/
structure SyncState where
  lastSyncAt : Option String
  lastCursor : Option String
  syncToken : Option String
  totalSynced : Nat
  lastRunRecords : Nat
  status : String
  lastError : Option String

/-- `SyncResult` (the returned run summary).  The wall-clock `duration` field
is not modelled. -/
structure SyncResult where
  name : String
  new : Nat
  updated : Nat
  skipped : Nat
  errors : Nat
  status : String
  error : Option String

/-- The `request` block of a `SyncMapping`. -/
structure RequestTemplate where
  method : Option String := none
  path : Option String := none
  queryParams : Option (List (String × JValue)) := none
  body : Option (List (String × JValue)) := none
  headers : Option (List (String × String)) := none

/-- The optional `detail` block of a `SyncMapping`. -/
structure DetailConfig where
  actionId : String
  path : String
  pathVar : String
  idField : String
  queryParams : Option (List (String × JValue)) := none

/-- The `record` block of a `SyncMapping`. -/
structure RecordConfig where
  type : String
  mapping : List (String × String)
  tags : Option (List String) := none
  naturalKeys : Option (List String) := none

/-- The `externalRef` block of a `SyncMapping`. -/
structure ExternalRefConfig where
  system : String
  idField : String
  urlTemplate : Option String := none

/-- `SyncMapping` (the transport identifiers `platform`, `connectionKey` and
`actionId` only feed the HTTP client headers and are carried unused). -/
structure SyncMapping where
  name : String
  platform : String := ""
  connectionKey : String := ""
  actionId : String := ""
  request : RequestTemplate
  pagination : PaginationConfig
  detail : Option DetailConfig := none
  record : RecordConfig
  externalRef : ExternalRefConfig
  incremental : Option IncrementalConfig := none

/-! ## External effects as oracles -/

/-- The request the engine hands to `picaRequest` for one page. -/
structure PageRequest where
  method : Option String
  path : Option String
  queryParams : List (String × JValue)
  body : Option (List (String × JValue))
  headers : Option (List (String × String))

/-- A detail-fetch request. -/
structure DetailRequest where
  actionId : String
  path : String
  queryParams : Option (List (String × JValue))

/-- The record handed to `output.upsert`. -/
structure UpsertCall where
  type : String
  data : List (String × JValue)
  tags : Option (List String)
  keys : List String

/-- The reference handed to `output.addRef`. -/
structure AddRefCall where
  recordId : String
  system : String
  externalId : String
  url : Option String

/-- A Pica client response (`status` is unused by the engine logic). -/
structure PicaResponse where
  data : Option JValue
  headers : List (String × String)

/-- The external world: the Pica HTTP client and the destination store,
indexed by page (and item) position; `Except.error` models a thrown
exception. -/
structure Env where
  fetch : Nat → PageRequest → Except String PicaResponse
  fetchUrl : Nat → String → Except String PicaResponse
  detail : Nat → Nat → DetailRequest → Except String PicaResponse
  upsert : Nat → Nat → UpsertCall → Except String (String × String)
  addRef : Nat → Nat → AddRefCall → Except String Unit

/-! ## The engine (`pull` and its helpers) -/

/-- `applyIncrementalFilter(queryParams, incremental, state)` from the engine
file. -/
def applyIncrementalFilter (queryParams : List (String × JValue))
    (incremental : IncrementalConfig) (state : SyncState) :
    List (String × JValue) :=
  match incremental.type with
  | .queryFilter =>
      if strTruthy incremental.param && strTruthy incremental.template &&
          strTruthy state.lastSyncAt then
        let lsa := state.lastSyncAt.getD ""
        let lastSyncDate := (jsSplit lsa 'T').headD ""
        let value := replaceFirst
          (replaceFirst (incremental.template.getD "")
            ("\x7b" ++ "lastSyncDate" ++ "\x7d") lastSyncDate)
          ("\x7b" ++ "lastSyncAt" ++ "\x7d") lsa
        setParam queryParams (incremental.param.getD "") (JValue.str value)
      else queryParams
  | .syncTokenI =>
      if strTruthy incremental.param && strTruthy state.syncToken then
        setParam queryParams (incremental.param.getD "")
          (JValue.str (state.syncToken.getD ""))
      else queryParams
  | .sortFilter =>
      if strTruthy incremental.param && strTruthy state.lastSyncAt then
        setParam queryParams (incremental.param.getD "")
          (JValue.str (state.lastSyncAt.getD ""))
      else queryParams

/-- The per-page query-parameter pipeline of the loop (engine lines 348-361):
static params, then the incremental filter when neither first run nor full
resync and a last-sync timestamp exists, then `applyCursor`. -/
def buildPageParams (m : SyncMapping) (full isFirstRun : Bool)
    (state : SyncState) (cursor : Option String) (offset : Nat) :
    List (String × JValue) :=
  let qp0 := m.request.queryParams.getD []
  let qp1 :=
    match m.incremental with
    | some inc =>
        if !full && !isFirstRun && strTruthy state.lastSyncAt then
          applyIncrementalFilter qp0 inc state
        else qp0
    | none => qp0
  applyCursor qp1 m.pagination cursor (offset : Int)

/-- The POST body-merge step of the loop (engine lines 363-372): only when a
body template is configured, the method is exactly `"POST"` and a truthy
`requestParam` exists is that one parameter moved from the query params into
the body. -/
def mergePostPagination (m : SyncMapping) (qp : List (String × JValue)) :
    List (String × JValue) × Option (List (String × JValue)) :=
  match m.request.body with
  | none => (qp, none)
  | some b =>
      if m.request.method == some "POST" && strTruthy m.pagination.requestParam then
        match lookupField qp (m.pagination.requestParam.getD "") with
        | some v =>
            (eraseParam qp (m.pagination.requestParam.getD ""),
             some (setParam b (m.pagination.requestParam.getD "") v))
        | none => (qp, some b)
      else (qp, some b)

/-- The start-of-run cursor seeding (engine lines 325 and 339-342): resume
from the saved cursor only when not a full resync, not the first run
(`lastSyncAt` set) and a truthy `lastCursor` exists. -/
def initialCursor (full : Bool) (state : SyncState) : Option String :=
  let isFirstRun := !(strTruthy state.lastSyncAt)
  if !full && !isFirstRun && strTruthy state.lastCursor then state.lastCursor
  else none

/-- The `running` state saved at run start (engine lines 328-330). -/
def runningState (state : SyncState) : SyncState :=
  { state with status := "running", lastError := none }

/-- The (best-effort) detail-fetch enrichment of one item (engine lines
425-458): on any failure or non-object detail body the list item is kept. -/
def detailItemData (m : SyncMapping) (env : Env) (pageIdx itemIdx : Nat)
    (item : JValue) : JValue :=
  match m.detail with
  | none => item
  | some d =>
      match extractId item d.idField with
      | some detailId =>
          if detailId = "" then item
          else
            let detailPath := replaceFirst d.path ("\x7b" ++ d.pathVar ++ "\x7d") detailId
            match env.detail pageIdx itemIdx
                { actionId := d.actionId, path := detailPath,
                  queryParams := d.queryParams } with
            | .ok dr =>
                match dr.data with
                | some (JValue.obj fs) => JValue.obj fs
                | some (JValue.arr xs) => JValue.arr xs
                | _ => item
            | .error _ => item
      | none => item

/-- JS `s.endsWith(":")`: the last character is a colon. -/
def endsWithColon (l : List Char) : Bool :=
  match l.getLast? with
  | some c => c == ':'
  | none => false

/-- Whether a substituted natural-key string is pushed onto the key list
(engine lines 477-482): nonempty with no colon, or nonempty without a
trailing colon or a double colon. -/
def naturalKeyEmit (resolved : String) : Bool :=
  if resolved ≠ "" && !(resolved.data.contains ':') then true
  else if resolved ≠ "" && !(endsWithColon resolved.data) &&
      !(hasColonColon resolved.data) then true
  else false

/-- The natural-key derivation loop (engine lines 470-484): each template is
substituted against the mapped data and appended when the emit heuristic
passes. -/
def naturalKeysOf (templates : List String)
    (mappedData : List (String × JValue)) : List String :=
  templates.foldl (fun acc t =>
    let resolved := naturalKeyResolve t mappedData
    if naturalKeyEmit resolved then acc ++ [resolved] else acc) []

/-- The dedup key list of one item (engine lines 464-484): the mandatory
`system:externalId` key followed by the surviving natural keys in template
order. -/
def keysOfItem (m : SyncMapping) (externalId : String)
    (mappedData : List (String × JValue)) : List String :=
  [m.externalRef.system ++ ":" ++ externalId] ++
    (match m.record.naturalKeys with
     | some ts => naturalKeysOf ts mappedData
     | none => [])

/-- The four run counters (`skippedCount` is declared but never incremented
in the source). -/
structure Counts where
  newCount : Nat
  updatedCount : Nat
  skippedCount : Nat
  errorCount : Nat
deriving Repr, DecidableEq

/-- The counters at run start (engine lines 332-335). -/
def Counts.zero : Counts := ⟨0, 0, 0, 0⟩

/-- Processing of one item inside the per-item try/catch (engine lines
415-516): an unresolvable (or falsy) external id, a throwing upsert or a
throwing addRef each count one error and move on; otherwise the store's
reported action decides new vs updated. -/
def processItem (m : SyncMapping) (env : Env) (pageIdx itemIdx : Nat)
    (item : JValue) (counts : Counts) : Counts :=
  match extractId item m.externalRef.idField with
  | none => { counts with errorCount := counts.errorCount + 1 }
  | some externalId =>
      if externalId = "" then { counts with errorCount := counts.errorCount + 1 }
      else
        let itemData := detailItemData m env pageIdx itemIdx item
        let mappedData := applyMapping itemData m.record.mapping
        let keys := keysOfItem m externalId mappedData
        match env.upsert pageIdx itemIdx
            { type := m.record.type, data := mappedData,
              tags := m.record.tags, keys := keys } with
        | .error _ => { counts with errorCount := counts.errorCount + 1 }
        | .ok (recordId, action) =>
            let externalUrl :=
              if strTruthy m.externalRef.urlTemplate then
                some (buildExternalUrl (m.externalRef.urlTemplate.getD "") item)
              else none
            match env.addRef pageIdx itemIdx
                { recordId := recordId, system := m.externalRef.system,
                  externalId := externalId, url := externalUrl } with
            | .error _ => { counts with errorCount := counts.errorCount + 1 }
            | .ok _ =>
                if action = "updated" then
                  { counts with updatedCount := counts.updatedCount + 1 }
                else { counts with newCount := counts.newCount + 1 }

/-- The item loop of one page (engine lines 415-516); per-item failure never
aborts the page. -/
def processItems (m : SyncMapping) (env : Env) (pageIdx : Nat) :
    List JValue → Nat → Counts → Counts
  | [], _, counts => counts
  | item :: rest, itemIdx, counts =>
      processItems m env pageIdx rest (itemIdx + 1)
        (processItem m env pageIdx itemIdx item counts)

/-- How one run's loop ended: `finished` carries the final cursor after the
last page, `aborted` carries the message of the request-level exception; both
carry the counters and the threaded state (whose `lastCursor` holds the last
per-page checkpoint). -/
inductive LoopEnd where
  | finished : Option String → Counts → SyncState → LoopEnd
  | aborted : String → Counts → SyncState → LoopEnd

/-- The page request of one loop iteration (engine lines 379-401): a direct
URL fetch for link-header continuation with a truthy cursor, otherwise a
composed passthrough request. -/
def pageFetch (m : SyncMapping) (env : Env) (pageIdx : Nat)
    (cursor : Option String) (qp : List (String × JValue))
    (body : Option (List (String × JValue))) : Except String PicaResponse :=
  if m.pagination.type == PaginationType.linkHeader && strTruthy cursor then
    env.fetchUrl pageIdx (cursor.getD "")
  else
    env.fetch pageIdx
      { method := m.request.method, path := m.request.path,
        queryParams := qp, body := body, headers := m.request.headers }

/-- The `while (!done)` page loop of `pull` (engine lines 345-526), driven by
`fuel` (the JS loop has no bound; `none` models running past the fuel).  A
page iteration builds the params, merges POST pagination into the body,
issues the request (directly by URL for link-header continuation), extracts
the page, processes the items, advances cursor and offset and checkpoints
`state.lastCursor`. -/
def pullLoop (m : SyncMapping) (full isFirstRun : Bool) (env : Env) :
    Nat → Nat → Option String → Nat → Counts → SyncState → Option LoopEnd
  | 0, _, _, _, _, _ => none
  | fuel + 1, pageIdx, cursor, offset, counts, state =>
      let qp2 := buildPageParams m full isFirstRun state cursor offset
      let merged := mergePostPagination m qp2
      match pageFetch m env pageIdx cursor merged.1 merged.2 with
      | .error msg => some (.aborted msg counts state)
      | .ok response =>
          let page := extractPage response.data m.pagination response.headers
          let counts' := processItems m env pageIdx page.items 0 counts
          let cursor' := page.nextCursor
          let offset' := offset + page.items.length
          let state' := { state with lastCursor := cursor' }
          if page.done then some (.finished cursor' counts' state')
          else pullLoop m full isFirstRun env fuel (pageIdx + 1) cursor' offset'
            counts' state'

/-- `pull(mapping, options)` (engine lines 316-577): load state, mark it
running, run the loop from the seeded cursor and offset 0, then finalize.
On success the sync token is captured from the final cursor when the
incremental strategy is `sync-token` with a truthy `tokenField`, and the
state is completed with the cursor cleared; on a request-level exception the
state is marked `error` with the message, `lastCursor` untouched, and the
result carries the partial counts plus one error.  `now` stands for
`new Date().toISOString()`; `none` models a run that outlives the fuel. -/
def pull (m : SyncMapping) (full : Bool) (env : Env) (initState : SyncState)
    (fuel : Nat) (now : String) : Option (SyncResult × SyncState) :=
  match pullLoop m full (!(strTruthy initState.lastSyncAt)) env fuel 0
      (initialCursor full initState) 0 Counts.zero (runningState initState) with
  | none => none
  | some (.finished finalCursor counts stL) =>
      let state2 :=
        match m.incremental with
        | some inc =>
            if inc.type == IncrementalType.syncTokenI && strTruthy inc.tokenField
            then { stL with syncToken := finalCursor }
            else stL
        | none => stL
      let state3 := { state2 with
        lastSyncAt := some now, lastCursor := none,
        totalSynced := state2.totalSynced + counts.newCount,
        lastRunRecords := counts.newCount,
        status := "completed", lastError := none }
      some ({ name := m.name, new := counts.newCount,
              updated := counts.updatedCount, skipped := counts.skippedCount,
              errors := counts.errorCount, status := "completed",
              error := none }, state3)
  | some (.aborted msg counts stL) =>
      let stE := { stL with
        status := "error", lastError := some msg,
        lastRunRecords := counts.newCount }
      some ({ name := m.name, new := counts.newCount,
              updated := counts.updatedCount, skipped := counts.skippedCount,
              errors := counts.errorCount + 1, status := "error",
              error := some msg }, stE)

/-! ## Observation projections and concrete example inputs -/

/-- The part of a loop outcome visible in the returned `SyncResult`: how the
loop ended (final cursor or abort message) and the counters. -/
def LoopEnd.obs : LoopEnd → (Option String ⊕ String) × Counts
  | .finished c counts _ => (Sum.inl c, counts)
  | .aborted msg counts _ => (Sum.inr msg, counts)

/-- The counters of a loop outcome. -/
def LoopEnd.cnts : LoopEnd → Counts
  | .finished _ counts _ => counts
  | .aborted _ counts _ => counts

/-- A fresh idle persisted state (the `loadState` default). -/
def idleState : SyncState := ⟨none, none, none, 0, 0, "idle", none⟩

/-- An environment whose store always inserts and whose fetches are never
expected to be reached. -/
def envBase : Env where
  fetch := fun _ _ => Except.error "unreachable"
  fetchUrl := fun _ _ => Except.error "unreachable"
  detail := fun _ _ _ => Except.error "unreachable"
  upsert := fun _ _ _ => Except.ok ("r1", "inserted")
  addRef := fun _ _ _ => Except.ok ()

/-- A cursor-paginated mapping whose continuation is sent as `pageToken`. -/
def exMapCursor : SyncMapping :=
  { name := "t", request := {},
    pagination := ⟨PaginationType.cursor, some "pageToken", some "next", some "items", none⟩,
    record := { type := "person", mapping := [("pid", "id")] },
    externalRef := { system := "sys", idField := "id" } }

/-- An environment whose page fetch fails with a message revealing whether
the outgoing query params carried the `pageToken` parameter. -/
def envProbeCursor : Env :=
  { envBase with
    fetch := fun _ r =>
      Except.error
        (if (lookupField r.queryParams "pageToken").isSome then "seeded"
         else "unseeded") }

/-- A persisted state holding a mid-run checkpoint but no completed run
(`lastSyncAt` still null). -/
def stCursorNoSync : SyncState := ⟨none, some "abc", none, 0, 0, "idle", none⟩

/-- A persisted state holding a checkpoint after a completed run. -/
def stCursorWithSync : SyncState :=
  ⟨some "2020-01-01T00:00:00Z", some "abc", none, 0, 0, "completed", none⟩

/-- An environment whose page fetch always returns an empty object page. -/
def envEmptyPage : Env :=
  { envBase with fetch := fun _ _ => Except.ok ⟨some (JValue.obj []), []⟩ }

/-- A single-page (`none` pagination) mapping with a `sync-token`
incremental strategy that has no `tokenField`. -/
def exMapNoTokenField : SyncMapping :=
  { exMapCursor with
    pagination := ⟨PaginationType.pnone, none, none, none, none⟩,
    incremental := some ⟨IncrementalType.syncTokenI, none, none, none⟩ }

/-- The same mapping with a `tokenField` configured. -/
def exMapWithTokenField : SyncMapping :=
  { exMapNoTokenField with
    incremental := some ⟨IncrementalType.syncTokenI, none, none, some "tok"⟩ }

/-- A persisted state carrying a previously captured sync token. -/
def stOldToken : SyncState := { idleState with syncToken := some "old" }

/-- A single-page mapping with no incremental config. -/
def exMapPlain : SyncMapping :=
  { exMapCursor with pagination := ⟨PaginationType.pnone, none, none, none, none⟩ }

/-- An environment whose page fetch always throws. -/
def envBoom : Env := { envBase with fetch := fun _ _ => Except.error "boom" }

/-- A POST mapping with a pagination `requestParam` but no body template. -/
def exMapPostNoBody : SyncMapping :=
  { exMapCursor with
    request := { method := some "POST" },
    pagination := ⟨PaginationType.offset, some "offset", none, none, some 100⟩ }

/-- The same POST mapping with a body template configured. -/
def exMapPostBody : SyncMapping :=
  { exMapPostNoBody with
    request := { method := some "POST", body := some [("q", JValue.str "x")] } }

/-- A single-page mapping reading items from an `items` field. -/
def exMapItems : SyncMapping :=
  { exMapCursor with
    pagination := ⟨PaginationType.pnone, none, none, some "items", none⟩ }

/-- An environment returning one page with one item whose id field is
missing. -/
def envNoIdItem : Env :=
  { envBase with
    fetch := fun _ _ =>
      Except.ok ⟨some (JValue.obj
        [("items", JValue.arr [JValue.obj [("noid", JValue.num 1)]])]), []⟩ }

/-- The outcome of running `exMapItems` against `envNoIdItem`: the single
item counts as an error, nothing is skipped. -/
def pairNoIdRun : SyncResult × SyncState :=
  (⟨"t", 0, 0, 0, 1, "completed", none⟩,
   ⟨some "T", none, none, 0, 0, "completed", none⟩)

/-- Response values failing the JS object guard of `extractPage` (`null`,
`undefined`, or a non-object primitive; arrays count as objects). -/
def nonObjectResp : Option JValue → Bool
  | some (JValue.obj _) => false
  | some (JValue.arr _) => false
  | _ => true

/-! # Helper lemmas -/

theorem lookupField_setParam_self (l : List (String × JValue)) (k : String)
    (v : JValue) : lookupField (setParam l k v) k = some v := by
  induction l with
  | nil => simp [setParam, lookupField]
  | cons hd tl ih =>
      obtain ⟨k', v'⟩ := hd
      by_cases h : k' = k
      · simp [setParam, h, lookupField]
      · simp only [setParam, if_neg h, lookupField]
        exact ih

theorem lookupField_setParam_ne (l : List (String × JValue)) (rp k : String)
    (v : JValue) (h : k ≠ rp) :
    lookupField (setParam l rp v) k = lookupField l k := by
  induction l with
  | nil =>
      simp only [setParam, lookupField]
      rw [if_neg (fun hh => h hh.symm)]
  | cons hd tl ih =>
      obtain ⟨k', v'⟩ := hd
      by_cases hh : k' = rp
      · subst hh
        simp only [setParam, if_pos rfl, lookupField]
        rw [if_neg (fun hc => h hc.symm), if_neg (fun hc => h hc.symm)]
      · simp only [setParam, if_neg hh, lookupField]
        by_cases hk : k' = k
        · rw [if_pos hk, if_pos hk]
        · rw [if_neg hk, if_neg hk]
          exact ih

theorem lookupField_eraseParam (l : List (String × JValue)) (k : String) :
    lookupField (eraseParam l k) k = none := by
  induction l with
  | nil => rfl
  | cons hd tl ih =>
      obtain ⟨k', v'⟩ := hd
      by_cases h : k' = k
      · simp only [eraseParam, List.filter_cons, h] at ih ⊢
        simpa using ih
      · simp only [eraseParam, List.filter_cons] at ih ⊢
        have hb : (!(k' == k)) = true := by simp [h]
        rw [hb]
        simp only [if_pos rfl, lookupField, if_neg h]
        exact ih

/-! # Claim C9 -/

/-- C9: for every pagination config and header map, `extractPage` applied to
a response that is null, undefined, or not an object returns empty items, a
null cursor and `done = true` (and, being a total function, never throws). -/
theorem c9_extractPage_nonObject (config : PaginationConfig)
    (headers : List (String × String)) (response : Option JValue)
    (h : nonObjectResp response = true) :
    extractPage response config headers = ⟨[], none, true⟩ := by
  match response with
  | none => rfl
  | some JValue.nullV => rfl
  | some (JValue.str s) => rfl
  | some (JValue.num n) => rfl
  | some (JValue.bool b) => rfl
  | some (JValue.obj fs) => simp [nonObjectResp] at h
  | some (JValue.arr xs) => simp [nonObjectResp] at h

/-- Witness for C9 at a concrete null response. -/
theorem c9_extractPage_nonObject_witness :
    nonObjectResp (some JValue.nullV) = true ∧
    extractPage (some JValue.nullV)
      ⟨PaginationType.cursor, none, some "next", none, none⟩ [] = ⟨[], none, true⟩ :=
  ⟨rfl, c9_extractPage_nonObject ⟨PaginationType.cursor, none, some "next", none, none⟩
    [] (some JValue.nullV) rfl⟩

/-! # Claim C7 -/

/-- C7: for `extractPage` with offset pagination and `pageSize = 100`, a
response yielding exactly 100 items gives `done = false` with a non-null
continuation marker, and a response yielding 99 or fewer items gives
`done = true`, regardless of item content. -/
theorem c7_offset_done (response : Option JValue)
    (headers : List (String × String)) (config : PaginationConfig)
    (ht : config.type = PaginationType.offset) (hp : config.pageSize = some 100) :
    ((extractPage response config headers).items.length = 100 →
      (extractPage response config headers).done = false ∧
      (extractPage response config headers).nextCursor ≠ none) ∧
    ((extractPage response config headers).items.length ≤ 99 →
      (extractPage response config headers).done = true) := by
  obtain ⟨ty, rp, rf, itf, ps⟩ := config
  simp only at ht hp
  subst ht
  subst hp
  match response with
  | none =>
      exact ⟨fun h => by
        have hr : (extractPage none
          ⟨PaginationType.offset, rp, rf, itf, some 100⟩ headers).items.length = 0 := rfl
        omega, fun _ => rfl⟩
  | some JValue.nullV =>
      exact ⟨fun h => by
        have hr : (extractPage (some JValue.nullV)
          ⟨PaginationType.offset, rp, rf, itf, some 100⟩ headers).items.length = 0 := rfl
        omega, fun _ => rfl⟩
  | some (JValue.str s) =>
      exact ⟨fun h => by
        have hr : (extractPage (some (JValue.str s))
          ⟨PaginationType.offset, rp, rf, itf, some 100⟩ headers).items.length = 0 := rfl
        omega, fun _ => rfl⟩
  | some (JValue.num n) =>
      exact ⟨fun h => by
        have hr : (extractPage (some (JValue.num n))
          ⟨PaginationType.offset, rp, rf, itf, some 100⟩ headers).items.length = 0 := rfl
        omega, fun _ => rfl⟩
  | some (JValue.bool b) =>
      exact ⟨fun h => by
        have hr : (extractPage (some (JValue.bool b))
          ⟨PaginationType.offset, rp, rf, itf, some 100⟩ headers).items.length = 0 := rfl
        omega, fun _ => rfl⟩
  | some (JValue.obj fs) =>
      have hred : extractPage (some (JValue.obj fs))
          ⟨PaginationType.offset, rp, rf, itf, some 100⟩ headers =
          (if ((extractItems (JValue.obj fs)
              ⟨PaginationType.offset, rp, rf, itf, some 100⟩).length : Int) < 100
           then ⟨extractItems (JValue.obj fs)
              ⟨PaginationType.offset, rp, rf, itf, some 100⟩, none, true⟩
           else ⟨extractItems (JValue.obj fs)
              ⟨PaginationType.offset, rp, rf, itf, some 100⟩, some "continue", false⟩) := rfl
      rw [hred]
      by_cases hlt : ((extractItems (JValue.obj fs)
          ⟨PaginationType.offset, rp, rf, itf, some 100⟩).length : Int) < 100
      · rw [if_pos hlt]
        exact ⟨fun h => by simp at h; omega, fun _ => rfl⟩
      · rw [if_neg hlt]
        exact ⟨fun _ => ⟨rfl, by simp⟩, fun h => by simp at h; omega⟩
  | some (JValue.arr xs) =>
      have hred : extractPage (some (JValue.arr xs))
          ⟨PaginationType.offset, rp, rf, itf, some 100⟩ headers =
          (if ((extractItems (JValue.arr xs)
              ⟨PaginationType.offset, rp, rf, itf, some 100⟩).length : Int) < 100
           then ⟨extractItems (JValue.arr xs)
              ⟨PaginationType.offset, rp, rf, itf, some 100⟩, none, true⟩
           else ⟨extractItems (JValue.arr xs)
              ⟨PaginationType.offset, rp, rf, itf, some 100⟩, some "continue", false⟩) := rfl
      rw [hred]
      by_cases hlt : ((extractItems (JValue.arr xs)
          ⟨PaginationType.offset, rp, rf, itf, some 100⟩).length : Int) < 100
      · rw [if_pos hlt]
        exact ⟨fun h => by simp at h; omega, fun _ => rfl⟩
      · rw [if_neg hlt]
        exact ⟨fun _ => ⟨rfl, by simp⟩, fun h => by simp at h; omega⟩

/-- Witness for C7: a 100-item page continues, a 99-item page is done. -/
theorem c7_offset_done_witness :
    (extractPage (some (JValue.arr (List.replicate 100 JValue.nullV)))
      ⟨PaginationType.offset, none, none, none, some 100⟩ []).done = false ∧
    (extractPage (some (JValue.arr (List.replicate 100 JValue.nullV)))
      ⟨PaginationType.offset, none, none, none, some 100⟩ []).nextCursor ≠ none ∧
    (extractPage (some (JValue.arr (List.replicate 99 JValue.nullV)))
      ⟨PaginationType.offset, none, none, none, some 100⟩ []).done = true := by
  have h1 := (c7_offset_done (some (JValue.arr (List.replicate 100 JValue.nullV)))
    [] ⟨PaginationType.offset, none, none, none, some 100⟩ rfl rfl).1 (by rfl)
  have h2 := (c7_offset_done (some (JValue.arr (List.replicate 99 JValue.nullV)))
    [] ⟨PaginationType.offset, none, none, none, some 100⟩ rfl rfl).2 (by decide)
  exact ⟨h1.1, h1.2, h2⟩

/-! # Claim C6 -/

/-- C6 counterexample: for the item `\x7b a: null \x7d` and table
`\x7b x: "a" \x7d` the mapped value of `x` is null although the source path
`a` resolves (to the JSON null value, not to `undefined`), so "value is null
iff the path does not resolve" fails in the only-if direction at this
input. -/
theorem c6_claim_counterexample :
    ¬ ((lookupField (applyMapping (JValue.obj [("a", JValue.nullV)]) [("x", "a")]) "x"
          = some JValue.nullV) ↔
        resolve (JValue.obj [("a", JValue.nullV)]) "a" = none) := by
  intro h
  have h1 : lookupField (applyMapping (JValue.obj [("a", JValue.nullV)]) [("x", "a")]) "x"
      = some JValue.nullV := rfl
  have h2 : (some JValue.nullV : Option JValue) = none := h.mp h1
  exact Option.noConfusion h2

/-- C6 amended: `applyMapping` returns a data object with exactly the target
keys of the table in order, each target's entry carries
`resolve(item, path) ?? null`, and that value is null iff the source path is
unresolved (`undefined`) or resolves to the JSON null value. -/
theorem c6_applyMapping_total (item : JValue) (mp : List (String × String)) :
    ((applyMapping item mp).map Prod.fst = mp.map Prod.fst) ∧
    (∀ t p, (t, p) ∈ mp →
      ((t, (resolve item p).getD JValue.nullV) ∈ applyMapping item mp ∧
       ((resolve item p).getD JValue.nullV = JValue.nullV ↔
         (resolve item p = none ∨ resolve item p = some JValue.nullV)))) := by
  constructor
  · simp [applyMapping, List.map_map, Function.comp]
  · intro t p hmem
    constructor
    · exact List.mem_map_of_mem _ hmem
    · cases hres : resolve item p with
      | none => simp
      | some v => cases v <;> simp

/-- Witness for C6 at a concrete item and table. -/
theorem c6_applyMapping_total_witness :
    ("y", JValue.nullV) ∈
      applyMapping (JValue.obj [("a", JValue.str "hello")])
        [("x", "a"), ("y", "missing")] ∧
    ("x", JValue.str "hello") ∈
      applyMapping (JValue.obj [("a", JValue.str "hello")])
        [("x", "a"), ("y", "missing")] := by
  have h1 := (c6_applyMapping_total (JValue.obj [("a", JValue.str "hello")])
    [("x", "a"), ("y", "missing")]).2 "y" "missing" (by simp)
  have h2 := (c6_applyMapping_total (JValue.obj [("a", JValue.str "hello")])
    [("x", "a"), ("y", "missing")]).2 "x" "a" (by simp)
  exact ⟨h1.1, h2.1⟩

/-! # Claim C5 -/

/-- C5 counterexample: with POST method and `requestParam = "offset"`
configured but no body template, the pagination parameter stays in the query
params and no body is produced, so the claimed rewrite is not unconditional. -/
theorem c5_claim_counterexample :
    mergePostPagination exMapPostNoBody [("offset", JValue.num 0)]
      = ([("offset", JValue.num 0)], none) ∧
    exMapPostNoBody.request.method = some "POST" ∧
    exMapPostNoBody.pagination.requestParam = some "offset" ∧
    lookupField (mergePostPagination exMapPostNoBody
      [("offset", JValue.num 0)]).1 "offset" = some (JValue.num 0) :=
  ⟨rfl, rfl, rfl, rfl⟩

/-- C5 amended: when the method is POST, a `requestParam` is configured, a
request body template is configured, and the pagination parameter is present
in the outgoing query params, that one parameter is removed from the query
params and written into the body. -/
theorem c5_post_body_merge (m : SyncMapping) (qp b : List (String × JValue))
    (rp : String) (v : JValue)
    (hb : m.request.body = some b) (hm : m.request.method = some "POST")
    (hrp : m.pagination.requestParam = some rp) (hne : rp ≠ "")
    (hlk : lookupField qp rp = some v) :
    mergePostPagination m qp = (eraseParam qp rp, some (setParam b rp v)) ∧
    lookupField (mergePostPagination m qp).1 rp = none ∧
    lookupField (setParam b rp v) rp = some v := by
  have hcond : (m.request.method == some "POST" &&
      strTruthy m.pagination.requestParam) = true := by
    rw [hm, hrp]
    simp [strTruthy, hne]
  have hmain : mergePostPagination m qp = (eraseParam qp rp, some (setParam b rp v)) := by
    unfold mergePostPagination
    split
    · rename_i hnone
      rw [hb] at hnone
      exact Option.noConfusion hnone
    · rename_i b' hsome
      rw [hb] at hsome
      injection hsome with hbb
      subst hbb
      rw [if_pos hcond, hrp]
      simp only [Option.getD_some]
      rw [hlk]
  refine ⟨hmain, ?_, lookupField_setParam_self b rp v⟩
  rw [hmain]
  exact lookupField_eraseParam qp rp

/-- Witness for C5 at a concrete POST mapping with a body. -/
theorem c5_post_body_merge_witness :
    mergePostPagination exMapPostBody [("offset", JValue.num 0)]
      = ([], some [("q", JValue.str "x"), ("offset", JValue.num 0)]) := by
  have h := c5_post_body_merge exMapPostBody [("offset", JValue.num 0)]
    [("q", JValue.str "x")] "offset" (JValue.num 0) rfl rfl rfl (by decide) rfl
  exact h.1

/-! # Claim C10 -/

theorem applyCursor_requestParam_none (qp : List (String × JValue))
    (ty : PaginationType) (rf itf : Option String) (ps : Option Int)
    (cursor : Option String) (off : Int) :
    applyCursor qp ⟨ty, none, rf, itf, ps⟩ cursor off = qp := by
  cases ty <;> simp [applyCursor, strTruthy]

/-- C10: `applyCursor` changes at most the single key named by
`config.requestParam` (every other key keeps its value), and with
`requestParam` unset or a link-header/none pagination type it returns the
params unchanged. -/
theorem c10_applyCursor_frame (qp : List (String × JValue))
    (config : PaginationConfig) (cursor : Option String) (off : Int)
    (k : String) :
    (config.requestParam ≠ some k →
      lookupField (applyCursor qp config cursor off) k = lookupField qp k) ∧
    ((config.requestParam = none ∨ config.type = PaginationType.linkHeader ∨
        config.type = PaginationType.pnone) →
      applyCursor qp config cursor off = qp) := by
  obtain ⟨ty, rp, rf, itf, ps⟩ := config
  constructor
  · intro hne
    cases rp with
    | none => rw [applyCursor_requestParam_none]
    | some r =>
        have hkr : k ≠ r := by
          intro hh
          exact hne (by rw [hh])
        cases ty <;>
          simp only [applyCursor] <;>
          split <;>
          first
            | rfl
            | (split
               · exact lookupField_setParam_ne qp r k _ hkr
               · rfl)
  · intro hcase
    rcases hcase with hnone | hlh | hpn
    · simp only at hnone
      subst hnone
      exact applyCursor_requestParam_none qp ty rf itf ps cursor off
    · simp only at hlh
      subst hlh
      simp [applyCursor]
    · simp only at hpn
      subst hpn
      simp [applyCursor]

/-- Witness for C10: a cursor-type config leaves other keys untouched, and a
link-header config returns the params unchanged. -/
theorem c10_applyCursor_frame_witness :
    lookupField (applyCursor [("q", JValue.str "v")]
      ⟨PaginationType.cursor, some "c", none, none, none⟩ (some "abc") 0) "q"
      = lookupField [("q", JValue.str "v")] "q" ∧
    applyCursor [("q", JValue.str "v")]
      ⟨PaginationType.linkHeader, some "c", none, none, none⟩ (some "u") 0
      = [("q", JValue.str "v")] := by
  refine ⟨?_, ?_⟩
  · exact (c10_applyCursor_frame [("q", JValue.str "v")]
      ⟨PaginationType.cursor, some "c", none, none, none⟩ (some "abc") 0 "q").1
      (by decide)
  · exact (c10_applyCursor_frame [("q", JValue.str "v")]
      ⟨PaginationType.linkHeader, some "c", none, none, none⟩ (some "u") 0 "q").2
      (Or.inr (Or.inl rfl))

/-! # Claim C2 -/

theorem naturalKeysOf_foldl (data : List (String × JValue)) :
    ∀ (tpls : List String) (acc : List String),
      tpls.foldl (fun acc t =>
        let resolved := naturalKeyResolve t data
        if naturalKeyEmit resolved then acc ++ [resolved] else acc) acc
      = acc ++ (tpls.map (fun t => naturalKeyResolve t data)).filter naturalKeyEmit := by
  intro tpls
  induction tpls with
  | nil => intro acc; simp
  | cons t rest ih =>
      intro acc
      simp only [List.foldl_cons, List.map_cons, List.filter_cons]
      by_cases h : naturalKeyEmit (naturalKeyResolve t data) = true
      · rw [if_pos h, h, ih]
        simp
      · rw [if_neg h]
        have hb : naturalKeyEmit (naturalKeyResolve t data) = false :=
          Bool.eq_false_iff.mpr h
        rw [hb, ih]
        simp

/-- The substitution scanner never emits an opening brace when every opening
brace of the input begins a complete placeholder and no substituted value
contains one. -/
theorem subAllGo_no_brace (f : String → String)
    (hf : ∀ w, '\x7b' ∉ (f w).data) :
    ∀ l : List Char,
      (bracesOkGo none l = true → '\x7b' ∉ subAllGo f none l) ∧
      (∀ w : List Char, bracesOkGo (some (!w.isEmpty)) l = true →
        '\x7b' ∉ subAllGo f (some w) l) := by
  intro l
  induction l with
  | nil =>
      refine ⟨fun _ => ?_, fun w hb => ?_⟩
      · simp [subAllGo]
      · simp [bracesOkGo] at hb
  | cons c rest ih =>
      constructor
      · intro hb
        by_cases hc : c = '\x7b'
        · simp only [subAllGo, if_pos hc]
          apply ih.2 []
          simp only [bracesOkGo, if_pos hc] at hb
          simpa using hb
        · simp only [subAllGo, if_neg hc]
          intro hmem
          rcases List.mem_cons.mp hmem with h1 | h2
          · exact hc h1.symm
          · simp only [bracesOkGo, if_neg hc] at hb
            exact ih.1 hb h2
      · intro w hb
        simp only [bracesOkGo] at hb
        by_cases hw : wordChar c = true
        · simp only [subAllGo, if_pos hw]
          rw [if_pos hw] at hb
          have := ih.2 (c :: w)
          simp only [List.isEmpty_cons] at this
          exact this (by simpa using hb)
        · rw [if_neg hw] at hb
          by_cases hd : c = '\x7d'
          · rw [if_pos hd] at hb
            have hseen : (!w.isEmpty) = true ∧ bracesOkGo none rest = true := by
              cases hwe : (!w.isEmpty)
              · rw [hwe] at hb
                simp at hb
              · rw [hwe] at hb
                simp at hb
                exact ⟨rfl, hb⟩
            have hwne : w.isEmpty = false := by
              cases hwe : w.isEmpty
              · rfl
              · rw [hwe] at hseen; simp at hseen
            simp only [subAllGo, if_neg hw, if_pos hd, hwne]
            simp only [Bool.false_eq_true, if_false]
            intro hmem
            rcases List.mem_append.mp hmem with h1 | h2
            · exact hf (String.mk w.reverse) h1
            · exact ih.1 hseen.2 h2
          · rw [if_neg hd] at hb
            simp at hb


theorem hasPh_of_no_brace : ∀ l : List Char, '\x7b' ∉ l → hasPh l = false := by
  intro l
  induction l with
  | nil => intro _; rfl
  | cons c rest ih =>
      intro h
      have hc : ¬(c = '\x7b') := fun hh => h (by rw [hh]; exact List.mem_cons_self _ _)
      simp only [hasPh, if_neg hc]
      exact ih (fun hm => h (List.mem_cons_of_mem _ hm))

/-- C2 counterexample: the template `user-` followed by the `id` placeholder,
with `id` unresolvable from the mapped data, is not dropped: the unresolved
placeholder substitutes as the empty string and the malformed key `user-`
passes the colon heuristic and is emitted. -/
theorem c2_claim_counterexample :
    lookupField ([] : List (String × JValue)) "id" = none ∧
    naturalKeysOf ["user-{id}"] [] = ["user-"] :=
  ⟨rfl, by decide⟩

/-- C2 amended: a natural-key template is emitted iff its substituted string
passes the colon heuristic (nonempty, and either colon-free or without a
trailing colon and without a double colon); unresolved placeholders
substitute as the empty string rather than dropping the key.  When every
opening brace of the template begins a complete placeholder and no
substituted value contains an opening brace, the emitted key contains no
residual placeholder pattern. -/
theorem c2_natural_keys (data : List (String × JValue)) :
    (∀ tpls : List String,
      naturalKeysOf tpls data
        = (tpls.map (fun t => naturalKeyResolve t data)).filter naturalKeyEmit) ∧
    (∀ tpl : String,
      bracesOk tpl.data = true →
      (∀ w, '\x7b' ∉ (phSubst data w).data) →
      hasPh (naturalKeyResolve tpl data).data = false) := by
  constructor
  · intro tpls
    unfold naturalKeysOf
    rw [naturalKeysOf_foldl data tpls []]
    simp
  · intro tpl hok hval
    unfold naturalKeyResolve
    apply hasPh_of_no_brace
    exact (subAllGo_no_brace (phSubst data) hval tpl.data).1 hok

/-- Witness for C2 at a fully resolvable template. -/
theorem c2_natural_keys_witness :
    naturalKeysOf ["person:{email}"] [("email", JValue.str "a@b.c")]
      = ["person:a@b.c"] ∧
    hasPh (naturalKeyResolve "person:{email}"
      [("email", JValue.str "a@b.c")]).data = false := by
  constructor
  · rw [(c2_natural_keys [("email", JValue.str "a@b.c")]).1 ["person:{email}"]]
    decide
  · apply (c2_natural_keys [("email", JValue.str "a@b.c")]).2 "person:{email}"
      (by decide)
    intro w
    simp only [phSubst, lookupField]
    by_cases h : "email" = w
    · rw [if_pos h]
      decide
    · rw [if_neg h]
      simp

/-! # Claim C8 -/

theorem processItem_skipped (m : SyncMapping) (env : Env) (p i : Nat)
    (item : JValue) (counts : Counts) :
    (processItem m env p i item counts).skippedCount = counts.skippedCount := by
  simp only [processItem]
  repeat' split
  all_goals rfl

theorem processItems_skipped (m : SyncMapping) (env : Env) (p : Nat) :
    ∀ (items : List JValue) (idx : Nat) (counts : Counts),
      (processItems m env p items idx counts).skippedCount = counts.skippedCount := by
  intro items
  induction items with
  | nil => intro idx counts; rfl
  | cons item rest ih =>
      intro idx counts
      simp only [processItems]
      rw [ih]
      exact processItem_skipped m env p idx item counts

theorem pullLoop_skipped (m : SyncMapping) (full isFirstRun : Bool) (env : Env) :
    ∀ (fuel pageIdx : Nat) (cursor : Option String) (offset : Nat)
      (counts : Counts) (state : SyncState) (e : LoopEnd),
      pullLoop m full isFirstRun env fuel pageIdx cursor offset counts state
        = some e →
      e.cnts.skippedCount = counts.skippedCount := by
  intro fuel
  induction fuel with
  | zero =>
      intro pageIdx cursor offset counts state e h
      exact absurd h (by simp [pullLoop])
  | succ n ih =>
      intro pageIdx cursor offset counts state e h
      simp only [pullLoop] at h
      split at h
      · injection h with h'
        rw [← h']
        rfl
      · split at h
        · injection h with h'
          rw [← h']
          simp only [LoopEnd.cnts]
          exact processItems_skipped m env pageIdx _ 0 counts
        · have := ih _ _ _ _ _ _ h
          rw [this]
          exact processItems_skipped m env pageIdx _ 0 counts

/-- C8: every invocation of `pull` that returns a result reports
`skipped = 0`, on both the completed path and the error path: no code path
in the engine increments the skipped counter. -/
theorem c8_skipped_zero (m : SyncMapping) (full : Bool) (env : Env)
    (st : SyncState) (fuel : Nat) (now : String) (pr : SyncResult × SyncState)
    (h : pull m full env st fuel now = some pr) :
    pr.1.skipped = 0 := by
  unfold pull at h
  split at h
  · exact Option.noConfusion h
  · rename_i fc counts stL heq
    have hz := pullLoop_skipped m full (!(strTruthy st.lastSyncAt)) env fuel 0
      (initialCursor full st) 0 Counts.zero (runningState st) _ heq
    injection h with h'
    rw [← h']
    simpa [LoopEnd.cnts, Counts.zero] using hz
  · rename_i msg counts stL heq
    have hz := pullLoop_skipped m full (!(strTruthy st.lastSyncAt)) env fuel 0
      (initialCursor full st) 0 Counts.zero (runningState st) _ heq
    injection h with h'
    rw [← h']
    simpa [LoopEnd.cnts, Counts.zero] using hz

/-- Witness for C8 at a concrete completed run. -/
theorem c8_skipped_zero_witness : pairNoIdRun.1.skipped = 0 :=
  c8_skipped_zero exMapItems false envNoIdItem idleState 3 "T" pairNoIdRun rfl

/-! # Claim C4 -/

theorem pageFetch_error (m : SyncMapping) (env : Env) (pageIdx : Nat)
    (cursor : Option String) (qp : List (String × JValue))
    (body : Option (List (String × JValue))) (msg : String)
    (h : pageFetch m env pageIdx cursor qp body = Except.error msg) :
    (∃ p r, env.fetch p r = Except.error msg) ∨
    (∃ p u, env.fetchUrl p u = Except.error msg) := by
  unfold pageFetch at h
  split at h
  · exact Or.inr ⟨pageIdx, _, h⟩
  · exact Or.inl ⟨pageIdx, _, h⟩

theorem pullLoop_aborted_fetch (m : SyncMapping) (full isFirstRun : Bool)
    (env : Env) :
    ∀ (fuel pageIdx : Nat) (cursor : Option String) (offset : Nat)
      (counts : Counts) (state : SyncState) (msg : String) (cts : Counts)
      (stL : SyncState),
      pullLoop m full isFirstRun env fuel pageIdx cursor offset counts state
        = some (.aborted msg cts stL) →
      (∃ p r, env.fetch p r = Except.error msg) ∨
      (∃ p u, env.fetchUrl p u = Except.error msg) := by
  intro fuel
  induction fuel with
  | zero =>
      intro pageIdx cursor offset counts state msg cts stL h
      exact absurd h (by simp [pullLoop])
  | succ n ih =>
      intro pageIdx cursor offset counts state msg cts stL h
      simp only [pullLoop] at h
      split at h
      · rename_i msg' hfe
        injection h with h'
        injection h' with h1 h2 h3
        rw [← h1]
        exact pageFetch_error m env pageIdx cursor _ _ msg' hfe
      · split at h
        · injection h with h'
          exact LoopEnd.noConfusion h'
        · exact ih _ _ _ _ _ _ _ _ h

/-- C4: when a request-level exception aborts the loop (the only aborting
exceptions are thrown page fetches), `pull` returns a result whose counts are
those accumulated so far plus exactly one extra error, with status `error`
and the failure message, and the final state has `status = "error"`,
`lastError` set to the message, and `lastCursor` exactly as the loop left it
(the last per-page checkpoint, untouched by the catch block). -/
theorem c4_error_path (m : SyncMapping) (full : Bool) (env : Env)
    (st : SyncState) (fuel : Nat) (now : String) (msg : String)
    (counts : Counts) (stL : SyncState)
    (hloop : pullLoop m full (!(strTruthy st.lastSyncAt)) env fuel 0
      (initialCursor full st) 0 Counts.zero (runningState st)
      = some (.aborted msg counts stL)) :
    pull m full env st fuel now =
      some ({ name := m.name, new := counts.newCount,
              updated := counts.updatedCount, skipped := counts.skippedCount,
              errors := counts.errorCount + 1, status := "error",
              error := some msg },
            { stL with
              status := "error"
              lastError := some msg
              lastRunRecords := counts.newCount }) ∧
    (pull m full env st fuel now).map (fun pr => pr.2.lastCursor)
      = some stL.lastCursor ∧
    ((∃ p r, env.fetch p r = Except.error msg) ∨
     (∃ p u, env.fetchUrl p u = Except.error msg)) := by
  have hmain : pull m full env st fuel now =
      some ({ name := m.name, new := counts.newCount,
              updated := counts.updatedCount, skipped := counts.skippedCount,
              errors := counts.errorCount + 1, status := "error",
              error := some msg },
            { stL with
              status := "error"
              lastError := some msg
              lastRunRecords := counts.newCount }) := by
    unfold pull
    rw [hloop]
  refine ⟨hmain, ?_, ?_⟩
  · rw [hmain]
    rfl
  · exact pullLoop_aborted_fetch m full (!(strTruthy st.lastSyncAt)) env fuel 0
      (initialCursor full st) 0 Counts.zero (runningState st) msg counts stL hloop

/-- Witness for C4: a first-page fetch failure on a fresh state. -/
theorem c4_error_path_witness :
    pull exMapPlain false envBoom idleState 1 "T" =
      some ({ name := "t", new := 0, updated := 0, skipped := 0, errors := 1,
              status := "error", error := some "boom" },
            ⟨none, none, none, 0, 0, "error", some "boom"⟩) := by
  have h := c4_error_path exMapPlain false envBoom idleState 1 "T" "boom"
    Counts.zero (runningState idleState) rfl
  exact h.1

/-! # Claim C3 -/

/-- C3 counterexample: a successful run of a mapping whose incremental type
is `sync-token` but whose `tokenField` is absent does not capture the final
cursor: the persisted `syncToken` keeps its previous value `old` instead of
the run's final cursor (which was null). -/
theorem c3_claim_counterexample :
    exMapNoTokenField.incremental
      = some ⟨IncrementalType.syncTokenI, none, none, none⟩ ∧
    (pullLoop exMapNoTokenField true true envEmptyPage 2 0 none 0 Counts.zero
      (runningState stOldToken)).map LoopEnd.obs
      = some (Sum.inl none, Counts.zero) ∧
    (pull exMapNoTokenField true envEmptyPage stOldToken 2 "T").map
      (fun pr => pr.2.syncToken) = some (some "old") :=
  ⟨rfl, rfl, rfl⟩

/-- C3 amended: on the success path, when the incremental strategy is
`sync-token` **and** a truthy `tokenField` is configured, the final cursor
value from the last page is captured as the new `state.syncToken` (and is
preserved by the completed-state finalization). -/
theorem c3_sync_token (m : SyncMapping) (full : Bool) (env : Env)
    (st : SyncState) (fuel : Nat) (now : String) (inc : IncrementalConfig)
    (fc : Option String) (counts : Counts) (stL : SyncState)
    (hinc : m.incremental = some inc)
    (hty : inc.type = IncrementalType.syncTokenI)
    (htf : strTruthy inc.tokenField = true)
    (hloop : pullLoop m full (!(strTruthy st.lastSyncAt)) env fuel 0
      (initialCursor full st) 0 Counts.zero (runningState st)
      = some (.finished fc counts stL)) :
    (pull m full env st fuel now).map (fun pr => pr.2.syncToken) = some fc := by
  unfold pull
  rw [hloop]
  have hcond : (inc.type == IncrementalType.syncTokenI &&
      strTruthy inc.tokenField) = true := by
    rw [hty, htf]
    rfl
  simp only [hinc, hcond, if_true]
  rfl

/-- Witness for C3 at a concrete mapping with a configured `tokenField`. -/
theorem c3_sync_token_witness :
    (pull exMapWithTokenField true envEmptyPage stOldToken 2 "T").map
      (fun pr => pr.2.syncToken) = some none :=
  c3_sync_token exMapWithTokenField true envEmptyPage stOldToken 2 "T"
    ⟨IncrementalType.syncTokenI, none, none, some "tok"⟩ none Counts.zero
    { runningState stOldToken with lastCursor := none }
    rfl rfl rfl rfl

/-! # Claim C1 -/

theorem initialCursor_full (st : SyncState) : initialCursor true st = none := rfl

theorem buildPageParams_full (m : SyncMapping) (fr : Bool) (state : SyncState)
    (cursor : Option String) (offset : Nat) :
    buildPageParams m true fr state cursor offset
      = applyCursor (m.request.queryParams.getD []) m.pagination cursor
        (offset : Int) := by
  unfold buildPageParams
  cases hinc : m.incremental with
  | none => rfl
  | some inc => rfl

theorem pullLoop_full_obs (m : SyncMapping) (env : Env) (fr fr' : Bool) :
    ∀ (fuel pageIdx : Nat) (cursor : Option String) (offset : Nat)
      (counts : Counts) (st st' : SyncState),
      (pullLoop m true fr env fuel pageIdx cursor offset counts st).map
        LoopEnd.obs
      = (pullLoop m true fr' env fuel pageIdx cursor offset counts st').map
        LoopEnd.obs := by
  intro fuel
  induction fuel with
  | zero => intros; rfl
  | succ n ih =>
      intro pageIdx cursor offset counts st st'
      simp only [pullLoop]
      rw [buildPageParams_full m fr st cursor offset,
        buildPageParams_full m fr' st' cursor offset]
      cases hresp : pageFetch m env pageIdx cursor
          (mergePostPagination m (applyCursor (m.request.queryParams.getD [])
            m.pagination cursor (offset : Int))).1
          (mergePostPagination m (applyCursor (m.request.queryParams.getD [])
            m.pagination cursor (offset : Int))).2 with
      | error msg => rfl
      | ok response =>
          show (if (extractPage response.data m.pagination response.headers).done
              then _ else _ : Option LoopEnd).map LoopEnd.obs
            = (if (extractPage response.data m.pagination response.headers).done
              then _ else _ : Option LoopEnd).map LoopEnd.obs
          cases hdone : (extractPage response.data m.pagination
              response.headers).done with
          | true => rfl
          | false => exact ih (pageIdx + 1) _ _ _ _ _

theorem pull_full_result_indep (m : SyncMapping) (env : Env)
    (st st' : SyncState) (fuel : Nat) (now : String) :
    (pull m true env st fuel now).map Prod.fst
      = (pull m true env st' fuel now).map Prod.fst := by
  have hobs := pullLoop_full_obs m env (!(strTruthy st.lastSyncAt))
    (!(strTruthy st'.lastSyncAt)) fuel 0 none 0 Counts.zero
    (runningState st) (runningState st')
  unfold pull
  simp only [initialCursor_full]
  cases hA : pullLoop m true (!(strTruthy st.lastSyncAt)) env fuel 0 none 0
      Counts.zero (runningState st) with
  | none =>
      cases hB : pullLoop m true (!(strTruthy st'.lastSyncAt)) env fuel 0 none 0
          Counts.zero (runningState st') with
      | none => rfl
      | some eB =>
          rw [hA, hB] at hobs
          exact Option.noConfusion hobs
  | some eA =>
      cases hB : pullLoop m true (!(strTruthy st'.lastSyncAt)) env fuel 0 none 0
          Counts.zero (runningState st') with
      | none =>
          rw [hA, hB] at hobs
          exact Option.noConfusion hobs
      | some eB =>
          rw [hA, hB] at hobs
          simp only [Option.map, Option.some.injEq] at hobs
          cases eA with
          | finished cA cntsA stLA =>
              cases eB with
              | finished cB cntsB stLB =>
                  simp only [LoopEnd.obs, Prod.mk.injEq, Sum.inl.injEq] at hobs
                  obtain ⟨hc, hcnt⟩ := hobs
                  subst hc
                  subst hcnt
                  rfl
              | aborted msgB cntsB stLB =>
                  simp only [LoopEnd.obs, Prod.mk.injEq] at hobs
                  exact absurd hobs.1 (by simp)
          | aborted msgA cntsA stLA =>
              cases eB with
              | finished cB cntsB stLB =>
                  simp only [LoopEnd.obs, Prod.mk.injEq] at hobs
                  exact absurd hobs.1 (by simp)
              | aborted msgB cntsB stLB =>
                  simp only [LoopEnd.obs, Prod.mk.injEq, Sum.inr.injEq] at hobs
                  obtain ⟨hmsg, hcnt⟩ := hobs
                  subst hmsg
                  subst hcnt
                  rfl

/-- C1 counterexample: a persisted state with a non-null `lastCursor` but a
null `lastSyncAt` (a first run that was interrupted mid-page) is **not**
resumed with `full = false`: the initial cursor is null, and observationally
the first page request goes out without the cursor parameter (the probe
environment reports `unseeded`), contradicting "regardless of whether
lastSyncAt is null or set". -/
theorem c1_claim_counterexample :
    stCursorNoSync.lastCursor = some "abc" ∧
    stCursorNoSync.lastSyncAt = none ∧
    initialCursor false stCursorNoSync = none ∧
    (pull exMapCursor false envProbeCursor stCursorNoSync 1 "T").map
      (fun pr => pr.1.error) = some (some "unseeded") :=
  ⟨rfl, rfl, rfl, rfl⟩

/-- C1 amended: with `full = false` the run's initial cursor is seeded from
`state.lastCursor` only when `lastSyncAt` is also set (not the first run);
with `full = true` the run always starts with a null cursor (and offset 0 in
`pull`), the per-page params never include the incremental filter, and the
returned result is independent of the persisted state. -/
theorem c1_resume_seeding (st st' : SyncState) (m : SyncMapping) (env : Env)
    (fuel : Nat) (now : String) :
    (strTruthy st.lastSyncAt = true → strTruthy st.lastCursor = true →
      initialCursor false st = st.lastCursor) ∧
    initialCursor true st = none ∧
    (∀ (isFirstRun : Bool) (cursor : Option String) (offset : Nat),
      buildPageParams m true isFirstRun st cursor offset
        = applyCursor (m.request.queryParams.getD []) m.pagination cursor
          (offset : Int)) ∧
    (pull m true env st fuel now).map Prod.fst
      = (pull m true env st' fuel now).map Prod.fst := by
  refine ⟨?_, initialCursor_full st, ?_, ?_⟩
  · intro h1 h2
    unfold initialCursor
    rw [h1, h2]
    rfl
  · intro fr c o
    exact buildPageParams_full m fr st c o
  · exact pull_full_result_indep m env st st' fuel now

/-- Witness for C1 at a concrete resumable state. -/
theorem c1_resume_seeding_witness :
    initialCursor false stCursorWithSync = some "abc" ∧
    initialCursor true stCursorWithSync = none := by
  refine ⟨?_, ?_⟩
  · exact (c1_resume_seeding stCursorWithSync stCursorWithSync exMapCursor
      envBase 1 "T").1 rfl rfl
  · exact (c1_resume_seeding stCursorWithSync stCursorWithSync exMapCursor
      envBase 1 "T").2.1

end Pipesync
